import Mathlib

/-!
# Verification of the noidea Git companion CLI

Shallow embedding of the string-processing core of the repository:
commit-message extraction, diff analysis and prompt construction
(`internal/feedback`), content trimming (`internal/github/issues.go`),
and issue-template generation (`cmd/issue.go`).

Modelling conventions:
* Go strings are modelled as `List Char`; all string constants involved are
  ASCII, so Go's byte indexing coincides with character indexing here.
* Go functions that can panic are modelled as `Option`-valued; `none` marks
  an input on which the Go code panics.
* Go `map[string]bool` sets are modelled as duplicate-free lists built with
  `insertKey`; the length of the list equals `len` of the Go map.
-/

/-! ## Go string primitives -/

def toL (s : String) : List Char := s.toList

/-- Whitespace recognised by Go's `unicode.IsSpace` (ASCII range:
space, \t, \n, \v, \f, \r). -/
def isGoSpace (c : Char) : Bool :=
  c = ' ' || c = '\t' || c = '\n' || c = Char.ofNat 11 || c = Char.ofNat 12 || c = '\r'

/-- Go `strings.TrimSpace`. -/
def goTrimSpace (s : List Char) : List Char :=
  ((s.dropWhile isGoSpace).reverse.dropWhile isGoSpace).reverse

/-- Helper for the split functions: prepend a character to the first part. -/
def splitCons (c : Char) (acc : List (List Char)) : List (List Char) :=
  match acc with
  | [] => [[c]]
  | h :: t => (c :: h) :: t

/-- Split at every character satisfying `p`, keeping empty parts
(the shape of Go `strings.Split` for one-character separators, and the
basis for `strings.Fields`). -/
def splitOnPred (p : Char → Bool) (s : List Char) : List (List Char) :=
  s.foldr (fun c acc => if p c then [] :: acc else splitCons c acc) [[]]

/-- Go `strings.Split` with a single-character separator. -/
def splitOnChar (sep : Char) (s : List Char) : List (List Char) :=
  splitOnPred (fun c => c = sep) s

/-- Go `strings.Split(s, "\n")`. -/
def splitLines (s : List Char) : List (List Char) := splitOnChar '\n' s

/-- Go `strings.Contains(s, needle)` (substring search). -/
def containsSub (needle : List Char) : List Char → Bool
  | [] => needle.isEmpty
  | c :: rest => needle.isPrefixOf (c :: rest) || containsSub needle rest

/-- Recursion core of `goSplit`; structurally recursive on a fuel argument so
that it evaluates inside the kernel. Every step consumes at least one
character, so fuel equal to the input length always suffices. -/
def goSplitAux (needle : List Char) : Nat → List Char → List (List Char)
  | _, [] => [[]]
  | 0, s => [s]
  | fuel + 1, c :: rest =>
    if needle.isPrefixOf (c :: rest) then
      [] :: goSplitAux needle fuel (rest.drop (needle.length - 1))
    else splitCons c (goSplitAux needle fuel rest)

/-- Go `strings.Split` with a multi-character separator: split at leftmost,
non-overlapping occurrences of `needle` (callers never pass `[]`). -/
def goSplit (needle s : List Char) : List (List Char) :=
  goSplitAux needle s.length s

/-- Go `strings.Join(parts, sep)`. -/
def goJoin : List (List Char) → List Char → List Char
  | [], _ => []
  | [part], _ => part
  | part :: rest, sep => part ++ sep ++ goJoin rest sep

/-- Go `strings.Replace(s, old, new, -1)` (replace every occurrence). -/
def goReplaceAll (s old new : List Char) : List Char :=
  goJoin (goSplit old s) new

/-- Go `strings.Fields`: split around runs of whitespace, no empty parts. -/
def goFields (s : List Char) : List (List Char) :=
  (splitOnPred isGoSpace s).filter (fun f => !f.isEmpty)

/-- Go `strings.TrimPrefix` (drop `pre` when it is a prefix, else unchanged). -/
def goTrimStart (pre s : List Char) : List Char :=
  if pre.isPrefixOf s then s.drop pre.length else s

/-- Go `strings.TrimSuffix`. -/
def goTrimEnd (suf s : List Char) : List Char :=
  if suf.isSuffixOf s then s.take (s.length - suf.length) else s

/-- Go `strings.ToLower` (ASCII). -/
def goToLower (s : List Char) : List Char := s.map Char.toLower

/-- Decimal rendering of a count, as Go `fmt.Sprintf("%d", n)` for a
non-negative int. -/
def natToL (n : Nat) : List Char := toL (Nat.repr n)

/-- Number of lines of a string, in the sense of Go
`len(strings.Split(s, "\n"))`. -/
def countLines (s : List Char) : Nat := (splitLines s).length

/-! ## Response Extractor: `extractCommitMessage` (engine source, lines 645-700) -/

/-- The conventional-commit types recognised by `extractCommitMessage`
(source line 672). -/
def commitTypes : List (List Char) :=
  [ toL "feat", toL "fix", toL "docs", toL "style", toL "refactor", toL "perf",
    toL "test", toL "build", toL "ci", toL "chore", toL "revert" ]

def tickFence : List Char := toL "```"

/-- Fenced-code-block step (source lines 654-662): when the response contains
a triple-backtick fence and splitting on it yields at least three parts, the
response becomes the trimmed first fenced section. -/
def stripFencedBlock (r : List Char) : List Char :=
  if containsSub tickFence r then
    match goSplit tickFence r with
    | _ :: p1 :: _ :: _ => goTrimSpace p1
    | _ => r
  else r

/-- Conventional-commit line test of the first scan (source lines 666-679):
the line contains a colon, is under 100 characters, and its part before the
first colon is one of `commitTypes`. -/
def isConventionalLine (line : List Char) : Bool :=
  line.contains ':' && decide (line.length < 100) &&
    commitTypes.contains ((splitOnChar ':' line).headD [])

/-- Candidate test of the second scan (source lines 683-688): non-empty,
under 100 characters, not starting with '#'. -/
def isPlainCandidateLine (line : List Char) : Bool :=
  !line.isEmpty && decide (line.length < 100) && !(toL "#").isPrefixOf line

/-- Scan lines in order; each line is trimmed and the first trimmed line
satisfying `p` is returned (shape of the two `for` loops of the source). -/
def findTrimmed (p : List Char → Bool) : List (List Char) → Option (List Char)
  | [] => none
  | l :: rest =>
    let t := goTrimSpace l
    if p t then some t else findTrimmed p rest

/-- The part of `extractCommitMessage` after the quote-stripping slice
(source lines 654-699): fence extraction, the two line scans, and the
72-character last resort. The `[]` branch mirrors the source's final
`return response`, unreachable because `strings.Split` never returns an
empty slice. -/
def extractAfterQuotes (r1 : List Char) : List Char :=
  let r2 := stripFencedBlock r1
  let lines := splitLines r2
  match findTrimmed isConventionalLine lines with
  | some line => line
  | none =>
    match findTrimmed isPlainCandidateLine lines with
    | some line => line
    | none =>
      match lines with
      | [] => r2
      | l0 :: _ =>
        let f := goTrimSpace l0
        if 72 < f.length then f.take 72 else f

/-- `extractCommitMessage` (source lines 645-700). `none` marks the panic of
the Go slice `response[1 : len(response)-1]` when `len(response) < 2`, which
is reachable because a one-character `"` is both prefix and suffix. -/
def extractCommitMessage (response : List Char) : Option (List Char) :=
  let r := goTrimSpace response
  if (toL "\"").isPrefixOf r && (toL "\"").isSuffixOf r then
    if r.length < 2 then none
    else some (extractAfterQuotes ((r.drop 1).take (r.length - 2)))
  else some (extractAfterQuotes r)

/-- Reference algorithm for commit-message extraction, following the spec's
words (spec 4.5 commit-message mode): trim surrounding whitespace; strip one
pair of surrounding double quotes; if the text contains a fenced code block
delimited by triple backticks, take the (trimmed) content of the first fenced
block; then return the first line whose prefix before ':' is a
conventional-commit type and whose length is under 100; if none, the first
non-empty line under 100 not starting with '#'; otherwise the first line
truncated to 72 characters. Total: a lone quote character has no pair of
quotes around anything, so it is left unchanged. -/
def specFenceStep (r1 : List Char) : List Char :=
  match goSplit tickFence r1 with
  | _ :: fenced :: _ :: _ => goTrimSpace fenced
  | _ => r1

/-- The line selection of the reference algorithm, over the trimmed lines:
first conventional-commit line under 100 characters, else first non-empty
non-comment line under 100 characters, else the first line truncated to 72
characters. -/
def specLineScan (tls : List (List Char)) : List Char :=
  match tls.find? isConventionalLine with
  | some line => line
  | none =>
    match tls.find? isPlainCandidateLine with
    | some line => line
    | none => (tls.headD []).take 72

def extractCommitMessageSpec (response : List Char) : List Char :=
  let r := goTrimSpace response
  let r1 :=
    if decide (2 ≤ r.length) && (toL "\"").isPrefixOf r && (toL "\"").isSuffixOf r then
      (r.drop 1).dropLast
    else r
  specLineScan ((splitLines (specFenceStep r1)).map goTrimSpace)

example : extractCommitMessage (toL "  \"feat: add thing\"  ") = some (toL "feat: add thing") := by
  decide

example : extractCommitMessage (toL "```\nfix: correct bug\n```") = some (toL "fix: correct bug") := by
  decide

example : extractCommitMessage (toL "\"") = none := by decide

example : extractCommitMessageSpec (toL "\"") = toL "\"" := by decide

/-! ## Diff Parser: the analysis loop of `GenerateCommitSuggestion`
(engine source, lines 438-516) -/

/-- Insertion into a Go `map[string]bool` used as a set: duplicate-free list,
append on first insertion. -/
def insertKey (f : List Char) (m : List (List Char)) : List (List Char) :=
  if m.contains f then m else m ++ [f]

def startsWith (s : List Char) (pre : String) : Bool := (toL pre).isPrefixOf s

def endsWith (s : List Char) (suf : String) : Bool := (toL suf).isSuffixOf s

/-- State of the diff analysis loop: the current file, the classification
sets, and the line counters. -/
structure DiffState where
  currentFile : List Char
  changedFiles : List (List Char)
  docFiles : List (List Char)
  codeFiles : List (List Char)
  configFiles : List (List Char)
  buildFiles : List (List Char)
  testFiles : List (List Char)
  scriptFiles : List (List Char)
  addedFiles : List (List Char)
  modifiedFiles : List (List Char)
  deletedFiles : List (List Char)
  totalAdditions : Nat
  totalDeletions : Nat
deriving DecidableEq

def initDiffState : DiffState :=
  ⟨ [], [], [], [], [], [], [], [], [], [], [], 0, 0 ⟩

/-- The `switch` categorising a changed file by suffix
(source lines 468-488); first matching case wins. -/
def categorizeFile (filePath : List Char) (s : DiffState) : DiffState :=
  if endsWith filePath ".md" || endsWith filePath ".txt" || endsWith filePath ".rst" then
    { s with docFiles := insertKey filePath s.docFiles }
  else if endsWith filePath ".go" || endsWith filePath ".js" || endsWith filePath ".ts" ||
      endsWith filePath ".py" || endsWith filePath ".java" || endsWith filePath ".c" ||
      endsWith filePath ".cpp" || endsWith filePath ".h" then
    if containsSub (toL "_test.") filePath then
      { s with testFiles := insertKey filePath s.testFiles }
    else
      { s with codeFiles := insertKey filePath s.codeFiles }
  else if endsWith filePath ".json" || endsWith filePath ".yaml" || endsWith filePath ".yml" ||
      endsWith filePath ".toml" || endsWith filePath ".ini" || endsWith filePath ".config" then
    { s with configFiles := insertKey filePath s.configFiles }
  else if endsWith filePath "Makefile" || endsWith filePath ".mk" ||
      containsSub (toL "CMakeLists.txt") filePath || endsWith filePath ".bazel" then
    { s with buildFiles := insertKey filePath s.buildFiles }
  else if endsWith filePath ".sh" || endsWith filePath ".bash" ||
      endsWith filePath ".bat" || endsWith filePath ".ps1" then
    { s with scriptFiles := insertKey filePath s.scriptFiles }
  else s

/-- The `if`/`else if` chain of the diff analysis loop maintaining the file
sets (source lines 460-496). -/
def diffStepSets (s : DiffState) (line : List Char) : DiffState :=
  if startsWith line "diff --git" then
    let parts := goFields line
    if 3 ≤ parts.length then
      let filePath := goTrimStart (toL "a/") (parts.getD 2 [])
      let s' := { s with currentFile := filePath,
                         changedFiles := insertKey filePath s.changedFiles }
      categorizeFile filePath s'
    else s
  else if startsWith line "new file mode" then
    { s with addedFiles := insertKey s.currentFile s.addedFiles }
  else if startsWith line "deleted file mode" then
    { s with deletedFiles := insertKey s.currentFile s.deletedFiles }
  else if !s.deletedFiles.contains s.currentFile && !s.addedFiles.contains s.currentFile then
    { s with modifiedFiles := insertKey s.currentFile s.modifiedFiles }
  else s

/-- The `+`/`-` line counting of the diff analysis loop
(source lines 498-502). -/
def diffStepCounts (s1 : DiffState) (line : List Char) : DiffState :=
  if startsWith line "+" && !startsWith line "+++" then
    { s1 with totalAdditions := s1.totalAdditions + 1 }
  else if startsWith line "-" && !startsWith line "---" then
    { s1 with totalDeletions := s1.totalDeletions + 1 }
  else s1

/-- One iteration of the diff analysis loop (source lines 459-503). -/
def diffStep (s : DiffState) (line : List Char) : DiffState :=
  diffStepCounts (diffStepSets s line) line

/-- The full diff analysis: run the loop over all lines of the diff, then
remove files from `modifiedFiles` that are in `addedFiles` or `deletedFiles`
(source lines 505-511). -/
def analyzeDiff (diff : List Char) : DiffState :=
  let s := (splitLines diff).foldl diffStep initDiffState
  let m := s.modifiedFiles.filter (fun f => !s.addedFiles.contains f)
  { s with modifiedFiles := m.filter (fun f => !s.deletedFiles.contains f) }

/-- A `diff --git` header line. -/
def isHeaderLine (l : List Char) : Bool := startsWith l "diff --git"

/-- A `new file mode` / `deleted file mode` marker line. -/
def isMarkerLine (l : List Char) : Bool :=
  startsWith l "new file mode" || startsWith l "deleted file mode"

/-- Shape predicate on a diff's lines: every header line is followed by at
least one further line before the next header (no header is last and no two
headers are adjacent). Every real `git diff` output has this shape, since a
header is always followed by index/mode lines and hunks. -/
def headersFollowed : List (List Char) → Bool
  | [] => true
  | [l] => !isHeaderLine l
  | l :: l2 :: rest =>
    (!isHeaderLine l || !isHeaderLine l2) && headersFollowed (l2 :: rest)

/-- The first remaining line exists and is not a header (used as the loop
invariant index of the diff analysis: only then may the changed set run one
file ahead of the modified set). -/
def headIsBody : List (List Char) → Bool
  | [] => false
  | l :: _ => !isHeaderLine l

/-! ## Completion Client configuration (engine source, lines 118-191) -/

structure ProviderConfig where
  BaseURL : List Char
  DefaultModel : List Char
  Name : List Char
deriving DecidableEq

def ProviderXAI : ProviderConfig :=
  ⟨ toL "https://api.x.ai/v1", toL "grok-2-1212", toL "xAI" ⟩

def ProviderOpenAI : ProviderConfig :=
  ⟨ toL "", toL "gpt-3.5-turbo", toL "OpenAI" ⟩

def ProviderDeepSeek : ProviderConfig :=
  ⟨ toL "https://api.deepseek.com/v1", toL "deepseek-chat", toL "DeepSeek" ⟩

/-- Default base URL of the external go-openai client, used when the
selected provider leaves `BaseURL` empty (source lines 178-181). -/
def openaiDefaultBaseURL : List Char := toL "https://api.openai.com/v1"

structure UnifiedFeedbackEngine where
  clientBaseURL : List Char
  model : List Char
  provider : ProviderConfig
  personalityName : List Char
  personalityFile : List Char
deriving DecidableEq

/-- The provider `switch` of `NewUnifiedFeedbackEngine`
(source lines 160-170): unknown names default to `ProviderOpenAI`. -/
def selectProviderConfig (provider : List Char) : ProviderConfig :=
  if provider = toL "xai" then ProviderXAI
  else if provider = toL "openai" then ProviderOpenAI
  else if provider = toL "deepseek" then ProviderDeepSeek
  else ProviderOpenAI

/-- `NewUnifiedFeedbackEngine` (source lines 156-191); the API key only
feeds the HTTP client and does not influence the resolved configuration. -/
def NewUnifiedFeedbackEngine (provider model apiKey personalityName personalityFile : List Char) :
    UnifiedFeedbackEngine :=
  let providerConfig := selectProviderConfig provider
  let model := if model.isEmpty then providerConfig.DefaultModel else model
  let baseURL :=
    if !providerConfig.BaseURL.isEmpty then providerConfig.BaseURL else openaiDefaultBaseURL
  let _ := apiKey
  ⟨ baseURL, model, providerConfig, personalityName, personalityFile ⟩

example : (analyzeDiff (toL "")).modifiedFiles = [[]] := by decide

example : (analyzeDiff (toL "")).changedFiles = [] := by decide

/-! ## Personalities and the commit-suggestion request
(engine source, lines 194-207 and 391-642) -/

/-- Modelled from the spec: the `internal/personality` package is not under
src/ (only its callers in the feedback engine are). Per spec section 3, a
Personality bundles prompt wording and decoding parameters; the decimal
temperature is modelled as a rational number. -/
structure Personality where
  name : List Char
  description : List Char
  systemPrompt : List Char
  userPromptTemplate : List Char
  maxTokens : Nat
  temperature : Rat
deriving DecidableEq

/-- The Go zero value `personality.Personality{}`. -/
def zeroPersonality : Personality := ⟨ [], [], [], [], 0, 0 ⟩

/-- Modelled from the spec: a loaded personality set supports lookup by name;
the empty name selects the configured default personality; an absent name is
an error (spec section 3: lookup falls back to a default personality when the
requested name is absent). -/
structure Personalities where
  items : List Personality
  defaultName : List Char
deriving DecidableEq

/-- Modelled from the spec: `personality.GetPersonality`. -/
def GetPersonality (ps : Personalities) (name : List Char) : Except Unit Personality :=
  let lookupName := if name.isEmpty then ps.defaultName else name
  match ps.items.find? (fun p => p.name == lookupName) with
  | some p => Except.ok p
  | none => Except.error ()

/-- Modelled from the spec: the built-in default personality set returned by
`personality.DefaultPersonalities()` when loading the configuration file
fails. The spec fixes only that the empty-name lookup resolves in it. -/
def defaultPersonalities : Personalities :=
  ⟨ [ ⟨ toL "default", toL "built-in default personality",
        toL "built-in system prompt", toL "built-in user prompt template", 150, 7/10 ⟩ ],
    toL "default" ⟩

/-- The load step of the feedback paths (source lines 196-200): a failed
configuration-file read falls back to the built-in default set. `loadResult`
stands for the outcome of the file read `personality.LoadPersonalities`. -/
def loadedPersonalities (loadResult : Except Unit Personalities) : Personalities :=
  match loadResult with
  | Except.ok ps => ps
  | Except.error _ => defaultPersonalities

/-- The personality resolution of `GenerateFeedback` (source lines 203-207):
a failed lookup falls back to the empty-name lookup, whose own error is
ignored (Go then keeps the zero `Personality` value). -/
def resolveFeedbackPersonality (ps : Personalities) (name : List Char) : Personality :=
  match GetPersonality ps name with
  | Except.ok p => p
  | Except.error _ =>
    match GetPersonality ps [] with
    | Except.ok p => p
    | Except.error _ => zeroPersonality

structure ChatMessage where
  role : List Char
  content : List Char
deriving DecidableEq

/-- The fields of `openai.ChatCompletionRequest` set by this repository. -/
structure ChatCompletionRequest where
  model : List Char
  messages : List ChatMessage
  temperature : Rat
  maxTokens : Nat
  n : Nat
deriving DecidableEq

/-- `CommitContext` (engine source): the commit-suggestion path uses the
diff and the commit history; the timestamp instant is opaque here. -/
structure CommitContext where
  message : List Char
  timestamp : Nat
  diff : List Char
  commitHistory : List (List Char)
  commitStats : List (List Char × List Char)
deriving DecidableEq

/-- The fixed, task-specific system prompt of `GenerateCommitSuggestion`
(source lines 408-427), used for every personality. -/
def commitSuggestionSystemPrompt : List Char :=
  toL "You are a Git expert who writes clear, concise, and descriptive commit messages.\nYour task is to suggest a high-quality commit message based on the staged changes.\nFollow these guidelines:\n1. IMPORTANT: Focus primarily on the ACTUAL CHANGES in the diff, not on past commit patterns\n2. When changes span MULTIPLE CATEGORIES (docs, code, build files, etc.), make sure to reflect ALL major aspects\n3. Use the conventional commits format (type: description) when appropriate\n   - docs: for documentation changes\n   - feat: for new features\n   - fix: for bug fixes\n   - refactor: for code restructuring without behavior changes\n   - style: for formatting/style changes\n   - test: for adding or fixing tests\n   - chore: for routine maintenance tasks\n   - build: for changes to build system or dependencies\n4. For mixed changes, choose the most significant type or use a broader scope like \"feat\" or \"chore\"\n5. When changes involve multiple components use a scope that encompasses all of them (e.g., \"build+docs\")\n6. Be specific about what changed, making sure your message accurately reflects the actual modifications\n7. Keep the first line under 72 characters\n8. Use present tense (e.g., \"add feature\" not \"added feature\")\n9. IMPORTANT: Your response must ONLY contain the commit message itself, with no explanations, reasoning, or markdown formatting"

/-- One formatted file list of the analysis block, e.g.
`"Code files: a.go, b.go\n"` (source pattern at lines 519-592). -/
def fileListLine (label : String) (files : List (List Char)) : List Char :=
  toL label ++ goJoin files (toL ", ") ++ toL "\n"

/-- The category listings of the analysis block, in source order
(lines 518-565): documentation, code, build, script, config, test. -/
def categoryLines (a : DiffState) : List Char :=
  (if !a.docFiles.isEmpty then fileListLine "Documentation files: " a.docFiles else []) ++
  (if !a.codeFiles.isEmpty then fileListLine "Code files: " a.codeFiles else []) ++
  (if !a.buildFiles.isEmpty then fileListLine "Build files: " a.buildFiles else []) ++
  (if !a.scriptFiles.isEmpty then fileListLine "Script files: " a.scriptFiles else []) ++
  (if !a.configFiles.isEmpty then fileListLine "Config files: " a.configFiles else []) ++
  (if !a.testFiles.isEmpty then fileListLine "Test files: " a.testFiles else [])

/-- The file-operation listings of the analysis block (source lines 567-592). -/
def operationLines (a : DiffState) : List Char :=
  toL "\nFile operations:\n" ++
  (if !a.addedFiles.isEmpty then fileListLine "Added: " a.addedFiles else []) ++
  (if !a.modifiedFiles.isEmpty then fileListLine "Modified: " a.modifiedFiles else []) ++
  (if !a.deletedFiles.isEmpty then fileListLine "Deleted: " a.deletedFiles else [])

/-- The full `diffContext` string of `GenerateCommitSuggestion`
(source lines 430-592): the raw diff followed by the derived analysis block. -/
def diffContextText (diff : List Char) : List Char :=
  let a := analyzeDiff diff
  toL "\nHere\x27s the current diff of staged changes:\n\n" ++ diff ++
  toL "\n\nAnalysis of changes:\n" ++
  toL "- Total files changed: " ++ natToL a.changedFiles.length ++
  toL " (" ++ natToL a.addedFiles.length ++ toL " added, " ++
  natToL a.modifiedFiles.length ++ toL " modified, " ++
  natToL a.deletedFiles.length ++ toL " deleted)\n" ++
  toL "- Lines: +" ++ natToL a.totalAdditions ++ toL ", -" ++
  natToL a.totalDeletions ++ toL "\n\n" ++
  categoryLines a ++ operationLines a

/-- `formatCommitList` (source lines 703-711): a numbered list of commit
messages. -/
def formatCommitList (commits : List (List Char)) : List Char :=
  (commits.enum.map (fun ic => natToL (ic.1 + 1) ++ toL ". " ++ ic.2 ++ toL "\n")).flatten

/-- The user prompt of `GenerateCommitSuggestion` (source lines 595-604). -/
def commitSuggestionUserPrompt (ctx : CommitContext) : List Char :=
  toL "I need a commit message for these staged changes.\n\n" ++
  diffContextText ctx.diff ++
  toL "\n\nPast commit messages for limited context (do not rely heavily on these patterns):\n" ++
  formatCommitList ctx.commitHistory ++
  toL "\n\nBased primarily on the ACTUAL CHANGES shown above, suggest a concise, descriptive commit message that accurately describes what was modified:"

/-- The request constructed by `GenerateCommitSuggestion` up to the HTTP call
(source lines 391-622): the personality set is loaded and looked up but its
result deliberately discarded; system prompt, temperature and token limit are
fixed task-specific constants. -/
def buildCommitSuggestionRequest (e : UnifiedFeedbackEngine)
    (loadResult : Except Unit Personalities) (ctx : CommitContext) :
    ChatCompletionRequest :=
  let personalities := loadedPersonalities loadResult
  let _ := GetPersonality personalities e.personalityName
  let _ := GetPersonality personalities []
  { model := e.model,
    messages := [ ⟨ toL "system", commitSuggestionSystemPrompt ⟩,
                  ⟨ toL "user", commitSuggestionUserPrompt ctx ⟩ ],
    temperature := 3/10,
    maxTokens := 150,
    n := 1 }

/-! ## Content Trimmer (`internal/github/issues.go`, lines 309-645) -/

/-- `getFileExtension` (issues source lines 339-345). -/
def getFileExtension (filePath : List Char) : List Char :=
  let parts := splitOnChar '.' filePath
  if 1 < parts.length then parts.getLastD [] else []

/-- `extractGeneralCodeSample` (issues source lines 602-645), as the list of
emitted lines: a labeled head quarter, a labeled middle slice when the file
is large enough, and a labeled tail slice. -/
def extractGeneralCodeSampleList (lines : List (List Char)) (maxLines : Nat) :
    List (List Char) :=
  let headerLines := maxLines / 4
  let middleLines := maxLines / 2
  let footerLines := maxLines - headerLines - middleLines
  let totalLines := lines.length
  [ toL "// NOTE: Large file - showing sample only", [] ] ++
  [ toL "// Beginning of file:" ] ++ lines.take headerLines ++ [ [] ] ++
  (if headerLines + footerLines + 10 < totalLines then
    let middleStart := totalLines / 2 - middleLines / 2
    [ toL "// Middle portion of file:" ] ++ (lines.drop middleStart).take middleLines ++ [ [] ]
  else []) ++
  (if headerLines + 10 < totalLines then
    let startIdx := totalLines - footerLines
    [ toL "// End of file:" ] ++ lines.drop startIdx
  else [])

def extractGeneralCodeSample (lines : List (List Char)) (maxLines : Nat) : List Char :=
  goJoin (extractGeneralCodeSampleList lines maxLines) (toL "\n")

/-- Scanner state of `extractRelevantGoCode` (issues source lines 355-363). -/
structure GoScanState where
  inImports : Bool
  inStruct : Bool
  inFunc : Bool
  importSection : List (List Char)
  structSections : List (List (List Char))
  funcSections : List (List (List Char))
  currentSection : List (List Char)
deriving DecidableEq

/-- One iteration of the Go-code scanner (issues source lines 365-413). -/
def goScanStep (st : GoScanState) (line : List Char) : GoScanState :=
  let trimmedLine := goTrimSpace line
  if startsWith trimmedLine "import (" then
    { st with inImports := true, importSection := st.importSection ++ [line] }
  else if st.inImports then
    let st := { st with importSection := st.importSection ++ [line] }
    if trimmedLine = toL ")" then { st with inImports := false } else st
  else if startsWith trimmedLine "type " && containsSub (toL "struct \x7b") line then
    { st with inStruct := true, currentSection := [line] }
  else if st.inStruct then
    let st := { st with currentSection := st.currentSection ++ [line] }
    if trimmedLine = toL "\x7d" then
      { st with inStruct := false,
                structSections := st.structSections ++ [st.currentSection],
                currentSection := [] }
    else st
  else if startsWith trimmedLine "func " then
    { st with inFunc := true, currentSection := [line] }
  else if st.inFunc then
    let st := { st with currentSection := st.currentSection ++ [line] }
    if trimmedLine = toL "\x7d" then
      { st with inFunc := false,
                funcSections := st.funcSections ++ [st.currentSection],
                currentSection := [] }
    else st
  else st

/-- Ascending insertion by section length, modelling the
`sort.Slice(funcSections, len less)` call (Go's sort is unstable; the order
among equal-length sections is unspecified there, stable here). -/
def insertByLen (sec : List (List Char)) : List (List (List Char)) → List (List (List Char))
  | [] => [sec]
  | s :: rest =>
    if sec.length < s.length then sec :: s :: rest else s :: insertByLen sec rest

def sortByLen (l : List (List (List Char))) : List (List (List Char)) :=
  l.foldr insertByLen []

/-- The greedy function-sample loop shared by the Go and JS extractors
(issues source lines 453-461): emit sections (each followed by a blank line)
while the running line count stays within `maxLines`; stop at the first
overflow. -/
def greedyFuncLines : List (List (List Char)) → Nat → Nat → List (List Char)
  | [], _, _ => []
  | sec :: rest, total, maxLines =>
    if maxLines < total + sec.length then []
    else sec ++ [[]] ++ greedyFuncLines rest (total + sec.length + 1) maxLines

/-- `extractRelevantGoCode` (issues source lines 348-473), as the list of
emitted lines before joining; the import section is included only when it
fits a quarter of the budget, at most two struct sections are included
(unbounded in size), and function sections are included greedily within the
budget. -/
def extractRelevantGoCodeList (lines : List (List Char)) (maxLines : Nat) :
    List (List Char) :=
  let st := lines.foldl goScanStep ⟨ false, false, false, [], [], [], [] ⟩
  let result := [ toL "// NOTE: Large file - showing extracted portions only", [] ]
  let result := result ++
    (if 0 < st.importSection.length ∧ st.importSection.length < maxLines / 4 then
      [ toL "// Package imports" ] ++ st.importSection ++ [ [] ]
    else [])
  let result := result ++
    (if !st.structSections.isEmpty then
      let numStructs := min 2 st.structSections.length
      [ toL "// Sample struct definitions" ] ++
      ((st.structSections.take numStructs).map (fun sec => sec ++ [ [] ])).flatten ++
      (if numStructs < st.structSections.length then
        [ toL "// ... and " ++ natToL (st.structSections.length - numStructs) ++
            toL " more struct definitions", [] ]
      else [])
    else [])
  result ++
    (if !st.funcSections.isEmpty then
      let sorted := sortByLen st.funcSections
      let numFuncs := min 3 sorted.length
      [ toL "// Sample function definitions" ] ++
      greedyFuncLines (sorted.take numFuncs) 0 maxLines ++
      (if numFuncs < sorted.length then
        [ toL "// ... and " ++ natToL (sorted.length - numFuncs) ++ toL " more functions" ]
      else [])
    else [])

def extractRelevantGoCode (lines : List (List Char)) (maxLines : Nat) : List Char :=
  let result := extractRelevantGoCodeList lines maxLines
  if result.length < 5 then extractGeneralCodeSample lines maxLines
  else goJoin result (toL "\n")

/-- Scanner state of `extractRelevantJSCode` (issues source lines 485-492). -/
structure JSScanState where
  inClass : Bool
  inFunction : Bool
  inImports : Bool
  importSection : List (List Char)
  classSections : List (List (List Char))
  funcSections : List (List (List Char))
  currentSection : List (List Char)
deriving DecidableEq

/-- One iteration of the JS/TS scanner (issues source lines 494-542). The
second `import` test of the source is unreachable (the first already caught
every such line) and is collapsed; past the import test, `inImports` is
unconditionally reset. -/
def jsScanStep (st : JSScanState) (line : List Char) : JSScanState :=
  let trimmedLine := goTrimSpace line
  if startsWith trimmedLine "import " then
    { st with importSection := st.importSection ++ [line], inImports := true }
  else
    let st := { st with inImports := false }
    if startsWith trimmedLine "class " then
      { st with inClass := true, currentSection := [line] }
    else if st.inClass then
      let st := { st with currentSection := st.currentSection ++ [line] }
      if trimmedLine = toL "\x7d" then
        { st with inClass := false,
                  classSections := st.classSections ++ [st.currentSection],
                  currentSection := [] }
      else st
    else if startsWith trimmedLine "function " ||
        (containsSub (toL "=>") trimmedLine && !startsWith trimmedLine "//") ||
        (startsWith trimmedLine "const " && containsSub (toL "= function") trimmedLine) then
      { st with inFunction := true, currentSection := [line] }
    else if st.inFunction then
      let st := { st with currentSection := st.currentSection ++ [line] }
      if trimmedLine = toL "\x7d" then
        { st with inFunction := false,
                  funcSections := st.funcSections ++ [st.currentSection],
                  currentSection := [] }
      else st
    else st

/-- `extractRelevantJSCode` (issues source lines 477-598), as the list of
emitted lines before joining: at most one class section (unbounded in size),
functions greedily within budget. -/
def extractRelevantJSCodeList (lines : List (List Char)) (maxLines : Nat) :
    List (List Char) :=
  let st := lines.foldl jsScanStep ⟨ false, false, false, [], [], [], [] ⟩
  let result := [ toL "// NOTE: Large file - showing extracted portions only", [] ]
  let result := result ++
    (if 0 < st.importSection.length ∧ st.importSection.length < maxLines / 4 then
      [ toL "// Module imports" ] ++ st.importSection ++ [ [] ]
    else [])
  let result := result ++
    (if !st.classSections.isEmpty then
      [ toL "// Sample class definitions" ] ++
      ((st.classSections.take 1).map (fun sec => sec ++ [ [] ])).flatten ++
      (if 1 < st.classSections.length then
        [ toL "// ... and " ++ natToL (st.classSections.length - 1) ++
            toL " more class definitions", [] ]
      else [])
    else [])
  result ++
    (if !st.funcSections.isEmpty then
      let sorted := sortByLen st.funcSections
      let numFuncs := min 3 sorted.length
      [ toL "// Sample function definitions" ] ++
      greedyFuncLines (sorted.take numFuncs) 0 maxLines ++
      (if numFuncs < sorted.length then
        [ toL "// ... and " ++ natToL (sorted.length - numFuncs) ++ toL " more functions" ]
      else [])
    else [])

def extractRelevantJSCode (lines : List (List Char)) (maxLines : Nat) : List Char :=
  let result := extractRelevantJSCodeList lines maxLines
  if result.length < 5 then extractGeneralCodeSample lines maxLines
  else goJoin result (toL "\n")

/-- `trimCodeContent` (issues source lines 311-336): content within the
50-line budget is returned unchanged; otherwise dispatch on the file
extension. -/
def trimCodeContent (content filePath : List Char) : List Char :=
  let lines := splitLines content
  let maxLines := 50
  if lines.length ≤ maxLines then content
  else
    let fileExt := getFileExtension filePath
    if fileExt = toL "go" then extractRelevantGoCode lines maxLines
    else if fileExt = toL "js" || fileExt = toL "ts" ||
        fileExt = toL "jsx" || fileExt = toL "tsx" then
      extractRelevantJSCode lines maxLines
    else extractGeneralCodeSample lines maxLines

/-- A Go source file consisting of a single struct declaration with 100
field lines (102 lines in total): over the 50-line budget, so the trimmer
takes the Go structural-extraction path. -/
def bigGoStructContent : List Char :=
  goJoin ([toL "type X struct \x7b"] ++ List.replicate 100 (toL "\ta int") ++ [toL "\x7d"])
    (toL "\n")

/-! ## Issue generation (`cmd/issue.go`, lines 660-1205) -/

/-- Repository identity (`github.RepoInfo`): owner and name. -/
structure RepoInfo where
  owner : List Char
  name : List Char
deriving DecidableEq

/-- The title of the simple template (issue source lines 1000-1007): the
first line of the description, truncated to 57 characters plus "..." when
longer than 60. -/
def issueTitleFromDescription (description : List Char) : List Char :=
  let firstLine := (splitLines description).headD []
  if 60 < firstLine.length then firstLine.take 57 ++ toL "..." else firstLine

/-- The section skeleton of `generateSimpleIssueTemplate`
(issue source lines 1179-1202). -/
def issueTemplateBody (description expectedBehavior currentBehavior
    possibleSolution stepsToReproduce : List Char) (repo : RepoInfo) : List Char :=
  toL "## Description\n\n" ++ description ++
  toL "\n\n## Expected Behavior\n\n" ++ expectedBehavior ++
  toL "\n\n## Current Behavior\n\n" ++ currentBehavior ++
  toL "\n\n## Possible Solution\n\n" ++ possibleSolution ++
  toL "\n\n## Steps to Reproduce\n\n" ++ stepsToReproduce ++
  toL "\n\n## Environment\n\n- Repository: " ++ repo.owner ++ toL "/" ++ repo.name ++
  toL "\n- Generated with noidea CLI"

def defaultExpectedText : List Char :=
  toL "When this feature is implemented, the system should be able to:\n- Support the functionality described in the description\n- Integrate seamlessly with existing components\n- Provide a user-friendly interface for this capability"

def defaultCurrentText : List Char :=
  toL "Currently, this functionality is not implemented or doesn\x27t meet the requirements described."

def defaultSolutionText : List Char :=
  toL "Consider implementing this feature by:\n- Creating the necessary interfaces and classes\n- Integrating with existing systems\n- Following the established patterns in the codebase\n- Adding appropriate tests and documentation"

def defaultStepsText : List Char :=
  toL "1. Design the solution based on requirements\n2. Implement the core functionality\n3. Add tests and documentation\n4. Submit for review"

def pluginExpectedText : List Char :=
  toL "When implemented, the Plugin System Foundation should:\n- Support loading and unloading of plugins at runtime\n- Provide well-defined interfaces for plugins to implement\n- Include a discovery mechanism for finding available plugins\n- Ensure plugins can\x27t compromise the core application\x27s stability\n- Include documentation and examples for plugin creators"

def pluginCurrentText : List Char :=
  toL "Currently, the application has no plugin system in place. All functionality is built directly into the application with no extension points."

def pluginSolutionText : List Char :=
  toL "Implement the plugin system by:\n- Creating an `internal/plugin` package with interface definitions\n- Defining a standard plugin manifest format (JSON or YAML)\n- Implementing a plugin loader that can dynamically load Go plugins or process scripts\n- Adding a plugin registry to track loaded plugins\n- Creating hooks in the application for plugins to integrate with\n- Providing a sandboxing mechanism for plugin execution"

def pluginStepsText : List Char :=
  toL "1. Define plugin interfaces in a new `internal/plugin` package\n2. Implement the plugin loading and registration system\n3. Create extension points in the application code\n4. Add plugin management commands to the CLI\n5. Create documentation and example plugins\n6. Add tests for the plugin system"

def projectsExpectedText : List Char :=
  toL "When implemented, the GitHub Projects integration should:\n- Display project boards and their columns within the CLI\n- Allow moving cards between columns\n- Support creating new project boards\n- Provide filtering and search capabilities\n- Integrate with the existing issue management system"

def projectsCurrentText : List Char :=
  toL "Currently, the application can manage GitHub issues but has no integration with GitHub Projects. Users need to use the GitHub website to manage project boards."

def projectsSolutionText : List Char :=
  toL "Implement GitHub Projects integration by:\n- Extending the GitHub API client to support Projects API endpoints\n- Creating models for Project boards, columns, and cards\n- Adding commands for viewing and managing projects\n- Implementing local caching of project data\n- Creating a TUI interface for visualizing project boards"

def projectsStepsText : List Char :=
  toL "1. Extend the GitHub API client with Projects API support\n2. Create data models for projects in `internal/github`\n3. Implement commands for project management\n4. Add project visualization in the CLI\n5. Integrate with existing issue commands\n6. Add tests for the new functionality"

def cacheExpectedText : List Char :=
  toL "When implemented, the Local Cache and Syncing system should:\n- Store GitHub issues and related data in a local SQLite database\n- Provide faster access to issue data without API calls\n- Periodically sync with GitHub to keep data fresh\n- Support offline operation with later synchronization\n- Handle conflict resolution when local and remote data diverge"

def cacheCurrentText : List Char :=
  toL "Currently, the application makes API calls to GitHub for each operation, which can be slow and requires constant internet connectivity. No data is cached locally between sessions."

def cacheSolutionText : List Char :=
  toL "Implement the local cache by:\n- Creating a new `internal/db` package for database operations\n- Using SQLite as the storage backend\n- Implementing models and schema for issues, comments, and projects\n- Adding a synchronization service that runs periodically\n- Modifying the GitHub service to use local data first\n- Adding conflict detection and resolution mechanisms"

def cacheStepsText : List Char :=
  toL "1. Design the database schema for issues and related entities\n2. Implement the database access layer in `internal/db`\n3. Create the sync service to keep local and remote data in sync\n4. Modify the GitHub service to use the cache\n5. Add conflict resolution logic\n6. Create tests for the caching and syncing functionality"

def workflowExpectedText : List Char :=
  toL "When implemented, the Workflow integration should:\n- Create branches with standardized naming based on issues\n- Automatically transition issues when branches are created/merged\n- Link commits to related issues\n- Update issue status based on commit messages\n- Provide a seamless workflow from issue creation to closure"

def workflowCurrentText : List Char :=
  toL "Currently, there\x27s no automated workflow between Git operations and GitHub issues. Users must manually create branches, reference issues, and update issue status."

def workflowSolutionText : List Char :=
  toL "Implement the workflow integration by:\n- Creating a new `internal/workflow` package\n- Implementing branch naming conventions and generators\n- Adding Git hooks for commit message validation and issue linking\n- Creating a state machine for issue transitions\n- Enhancing the commit hook to detect issue references\n- Adding workflow commands to the CLI"

def workflowStepsText : List Char :=
  toL "1. Design the workflow state machine and transitions\n2. Implement branch naming and creation in `internal/workflow`\n3. Create Git hooks for commit message processing\n4. Add issue transition logic\n5. Implement commands for workflow management\n6. Add tests for the workflow functionality"

def versioningExpectedText : List Char :=
  toL "When implemented, the Semantic Versioning system should:\n- Follow semantic versioning principles (MAJOR.MINOR.PATCH)\n- Automate version bumps based on commit types\n- Generate changelogs from commit messages\n- Create proper release tags\n- Display version information in the CLI\n- Add version badges to documentation"

def versioningCurrentText : List Char :=
  toL "Currently, there\x27s no standardized versioning system in place. Version numbers are manually updated and there\x27s no automated changelog generation."

def versioningSolutionText : List Char :=
  toL "Implement the semantic versioning by:\n- Creating version parsing and manipulation utilities\n- Adding commit message conventions (possibly using Conventional Commits)\n- Implementing changelog generation from Git history\n- Adding release commands to the CLI\n- Creating GitHub Actions for automated releases\n- Adding version display to the CLI"

def versioningStepsText : List Char :=
  toL "1. Define commit message conventions\n2. Implement version parsing and bumping logic\n3. Create changelog generation functionality\n4. Add release commands to the CLI\n5. Implement GitHub Actions workflows for releases\n6. Add tests for versioning functionality"

def bugExpectedText : List Char :=
  toL "The system should function correctly without the issues described in the description."

def bugCurrentText : List Char :=
  toL "The system currently exhibits problems as described in the description."

def bugStepsText : List Char :=
  toL "1. Identify the root cause of the issue\n2. Implement a fix that addresses the core problem\n3. Add tests to prevent regression\n4. Submit for review"

/-- `generateSimpleIssueTemplate` (issue source lines 999-1205): deterministic
non-AI issue generation; keyword tests on the lowercased description select
section texts (a bug-like description keeps the default solution text), and
the body is the fixed five-section skeleton plus the repository footer. -/
def generateSimpleIssueTemplate (description : List Char) (repo : RepoInfo) :
    List Char × List Char :=
  let title := issueTitleFromDescription description
  let descLower := goToLower description
  let isPluginSystem := containsSub (toL "plugin system") descLower ||
    containsSub (toL "plugin interface") descLower
  let isGithubProjects := containsSub (toL "github project") descLower ||
    containsSub (toL "project board") descLower
  let isLocalCache := containsSub (toL "local cache") descLower ||
    containsSub (toL "sqlite") descLower || containsSub (toL "syncing") descLower
  let isWorkflow := containsSub (toL "workflow") descLower ||
    containsSub (toL "branch") descLower || containsSub (toL "commit linking") descLower
  let isVersioning := containsSub (toL "version") descLower ||
    containsSub (toL "semantic") descLower || containsSub (toL "release") descLower
  let isBug := containsSub (toL "bug") descLower || containsSub (toL "fix") descLower ||
    containsSub (toL "issue") descLower || containsSub (toL "problem") descLower ||
    containsSub (toL "error") descLower || containsSub (toL "crash") descLower ||
    containsSub (toL "doesn\x27t work") descLower ||
    containsSub (toL "does not work") descLower || containsSub (toL "broken") descLower
  let sections :=
    if isPluginSystem then
      (pluginExpectedText, pluginCurrentText, pluginSolutionText, pluginStepsText)
    else if isGithubProjects then
      (projectsExpectedText, projectsCurrentText, projectsSolutionText, projectsStepsText)
    else if isLocalCache then
      (cacheExpectedText, cacheCurrentText, cacheSolutionText, cacheStepsText)
    else if isWorkflow then
      (workflowExpectedText, workflowCurrentText, workflowSolutionText, workflowStepsText)
    else if isVersioning then
      (versioningExpectedText, versioningCurrentText, versioningSolutionText, versioningStepsText)
    else if isBug then
      (bugExpectedText, bugCurrentText, defaultSolutionText, bugStepsText)
    else
      (defaultExpectedText, defaultCurrentText, defaultSolutionText, defaultStepsText)
  (title, issueTemplateBody description sections.1 sections.2.1 sections.2.2.1
    sections.2.2.2 repo)

/-- The response-splitting step of `generateIssueWithAI`
(issue source lines 728-751), after a successful AI call: split on "---";
fewer than two parts falls back to the simple template; otherwise title/body
are the trimmed first two parts, the `File:` markers of each referenced file
are rewritten to placeholders, and the environment footer is appended.
`codeRefs` carries the referenced file paths (a Go map iteration, ordered
here). -/
def handleIssueAIResponse (aiResponse description : List Char)
    (repo : RepoInfo) (codeRefs : List (List Char)) : List Char × List Char :=
  match goSplit (toL "---") aiResponse with
  | p0 :: p1 :: _ =>
    let title := goTrimSpace p0
    let body := goTrimSpace p1
    let body := codeRefs.foldl (fun body filePath =>
      let marker := toL "File: " ++ filePath
      if containsSub marker body then
        goReplaceAll body (marker ++ toL "\n```")
          (toL "File: \x7bfile:" ++ filePath ++ toL "\x7d\n```")
      else body) body
    let body := body ++ toL "\n\n## Environment\n\n- Repository: " ++ repo.owner ++
      toL "/" ++ repo.name ++ toL "\n- Generated with noidea CLI"
    (title, body)
  | _ => generateSimpleIssueTemplate description repo

/-! ## Helper lemmas about the string primitives -/

theorem splitCons_ne_nil (c : Char) (acc : List (List Char)) : splitCons c acc ≠ [] := by
  cases acc <;> simp [splitCons]

theorem splitOnPred_ne_nil (p : Char → Bool) (s : List Char) : splitOnPred p s ≠ [] := by
  induction s with
  | nil => simp [splitOnPred]
  | cons c rest ih =>
    simp only [splitOnPred, List.foldr_cons]
    split
    · simp
    · exact splitCons_ne_nil c _

theorem splitLines_ne_nil (s : List Char) : splitLines s ≠ [] :=
  splitOnPred_ne_nil _ s

theorem findTrimmed_eq_find (p : List Char → Bool) (ls : List (List Char)) :
    findTrimmed p ls = (ls.map goTrimSpace).find? p := by
  induction ls with
  | nil => rfl
  | cons l rest ih =>
    cases h : p (goTrimSpace l) with
    | true => simp [findTrimmed, h]
    | false => simp [findTrimmed, h, ih]

theorem findTrimmed_some {p : List Char → Bool} {ls : List (List Char)} {t : List Char}
    (h : findTrimmed p ls = some t) : p t = true := by
  rw [findTrimmed_eq_find] at h
  exact List.find?_some h

theorem containsSub_nil (s : List Char) : containsSub [] s = true := by
  cases s <;> simp [containsSub]

theorem containsSub_of_infix {n s : List Char} (h : n <:+: s) : containsSub n s = true := by
  obtain ⟨u, v, rfl⟩ := h
  induction u with
  | nil =>
    cases hn : n with
    | nil => simpa using containsSub_nil v
    | cons c cs =>
      simp [containsSub, List.cons_append, List.isPrefixOf_iff_prefix]
  | cons x u' ih =>
    simp only [List.cons_append, containsSub, List.append_assoc] at ih ⊢
    simp [ih]

theorem infix_of_containsSub {n s : List Char} (h : containsSub n s = true) : n <:+: s := by
  induction s with
  | nil =>
    simp [containsSub, List.isEmpty_iff] at h
    simp [h]
  | cons c rest ih =>
    simp only [containsSub, Bool.or_eq_true] at h
    rcases h with h | h
    · rw [List.isPrefixOf_iff_prefix] at h
      exact h.isInfix
    · exact List.infix_cons (ih h)

theorem infix_append_of_infix_right {l t : List Char} (h : l <:+: t) (a : List Char) :
    l <:+: a ++ t := by
  obtain ⟨u, v, rfl⟩ := h
  exact ⟨a ++ u, v, by simp [List.append_assoc]⟩

theorem infix_append_of_infix_left {l t : List Char} (h : l <:+: t) (b : List Char) :
    l <:+: t ++ b := by
  obtain ⟨u, v, rfl⟩ := h
  exact ⟨u, v ++ b, by simp [List.append_assoc]⟩

theorem goSplitAux_not_contains {needle : List Char} :
    ∀ (fuel : Nat) (s : List Char), containsSub needle s = false →
      goSplitAux needle fuel s = [s] := by
  intro fuel
  induction fuel with
  | zero => intro s h; cases s <;> rfl
  | succ fuel ih =>
    intro s h
    cases s with
    | nil => rfl
    | cons c rest =>
      simp only [containsSub, Bool.or_eq_false_iff] at h
      simp [goSplitAux, h.1, ih rest h.2, splitCons]

theorem goSplit_of_not_contains {needle s : List Char} (h : containsSub needle s = false) :
    goSplit needle s = [s] :=
  goSplitAux_not_contains _ s h

theorem stripFencedBlock_eq (r : List Char) : stripFencedBlock r = specFenceStep r := by
  unfold stripFencedBlock specFenceStep
  cases h : containsSub tickFence r with
  | true => simp
  | false => simp [goSplit_of_not_contains h]

/-! ## Claim theorems: extraction safety, provider fallback, request
uniformity, personality fallback -/

/-- C1: the spec claims commit-message extraction never raises and returns
some string for every input, explicitly including a string consisting only
of a quote character. The Go code panics on the lone quote character: after
trimming, `"` is both prefix and suffix of itself, and the slice
`response[1 : len(response)-1]` is `[1:0]`, a slice-bounds panic (modelled
as `none`). Whitespace-only and backtick-only inputs do return a string. -/
theorem extractCommitMessage_panics_on_lone_quote :
    extractCommitMessage (toL "\"") = none ∧
    extractCommitMessage (toL "   ") = some (toL "") ∧
    extractCommitMessage (toL "``````") = some (toL "") := by
  decide

/-- C4: for every provider name outside {xai, openai, deepseek}, the engine
configuration resolves to the default provider `ProviderOpenAI` — its base
URL and default model — and when no model is specified both the engine and
the commit-suggestion request carry that provider's default model. -/
theorem unknown_provider_resolves_to_default
    (provider apiKey personalityName personalityFile : List Char)
    (h1 : provider ≠ toL "xai") (h2 : provider ≠ toL "openai")
    (h3 : provider ≠ toL "deepseek")
    (loadResult : Except Unit Personalities) (ctx : CommitContext) :
    selectProviderConfig provider = ProviderOpenAI ∧
    (NewUnifiedFeedbackEngine provider [] apiKey personalityName personalityFile).provider
      = ProviderOpenAI ∧
    (NewUnifiedFeedbackEngine provider [] apiKey personalityName personalityFile).model
      = ProviderOpenAI.DefaultModel ∧
    (buildCommitSuggestionRequest
        (NewUnifiedFeedbackEngine provider [] apiKey personalityName personalityFile)
        loadResult ctx).model = ProviderOpenAI.DefaultModel := by
  have hs : selectProviderConfig provider = ProviderOpenAI := by
    simp [selectProviderConfig, h1, h2, h3]
  refine ⟨hs, ?_, ?_, ?_⟩ <;>
    simp [NewUnifiedFeedbackEngine, buildCommitSuggestionRequest, hs]

theorem unknown_provider_resolves_to_default_witness :
    (NewUnifiedFeedbackEngine (toL "invalid") [] [] [] []).model
      = ProviderOpenAI.DefaultModel :=
  (unknown_provider_resolves_to_default (toL "invalid") [] [] []
    (by decide) (by decide) (by decide) (Except.error ())
    ⟨ [], 0, [], [], [] ⟩).2.2.1

/-- C8: the commit-suggestion request is independent of the personality
configuration: for any two engines sharing a model, any two loaded
personality sets and any personality names/files, and the same commit
context, the requests are identical; the system message is the fixed
task-specific prompt and the decoding parameters are the constants
temperature 0.3 (modelled as 3/10) and 150 max tokens. -/
theorem commit_suggestion_request_personality_free
    (e1 e2 : UnifiedFeedbackEngine) (lr1 lr2 : Except Unit Personalities)
    (ctx : CommitContext) (hmodel : e1.model = e2.model) :
    buildCommitSuggestionRequest e1 lr1 ctx = buildCommitSuggestionRequest e2 lr2 ctx ∧
    (buildCommitSuggestionRequest e1 lr1 ctx).temperature = 3 / 10 ∧
    (buildCommitSuggestionRequest e1 lr1 ctx).maxTokens = 150 ∧
    (buildCommitSuggestionRequest e1 lr1 ctx).messages.headD ⟨ [], [] ⟩ =
      ⟨ toL "system", commitSuggestionSystemPrompt ⟩ := by
  refine ⟨ ?_, rfl, rfl, rfl ⟩
  simp [buildCommitSuggestionRequest, hmodel]

theorem commit_suggestion_request_personality_free_witness :
    buildCommitSuggestionRequest
        ⟨ [], toL "gpt-4", ProviderOpenAI, toL "sassy", toL "f1" ⟩
        (Except.error ()) ⟨ [], 0, [], [], [] ⟩ =
      buildCommitSuggestionRequest
        ⟨ [], toL "gpt-4", ProviderOpenAI, toL "zen", toL "f2" ⟩
        (Except.ok defaultPersonalities) ⟨ [], 0, [], [], [] ⟩ :=
  (commit_suggestion_request_personality_free
    ⟨ [], toL "gpt-4", ProviderOpenAI, toL "sassy", toL "f1" ⟩
    ⟨ [], toL "gpt-4", ProviderOpenAI, toL "zen", toL "f2" ⟩
    (Except.error ()) (Except.ok defaultPersonalities)
    ⟨ [], 0, [], [], [] ⟩ rfl).1

/-- C9: personality resolution in the feedback path always yields a
personality without aborting: a found name resolves to that personality, and
a failed lookup falls back to the default personality, the one the
empty-name lookup returns. (The `internal/personality` package is not under
src/; its lookup is modelled from the spec.) -/
theorem personality_lookup_falls_back_to_default
    (ps : Personalities) (name : List Char) (d : Personality)
    (hdef : ps.items.find? (fun p => p.name == ps.defaultName) = some d) :
    (∀ q, name.isEmpty = false →
        ps.items.find? (fun p => p.name == name) = some q →
        resolveFeedbackPersonality ps name = q) ∧
    (ps.items.find? (fun p => p.name == name) = none →
        resolveFeedbackPersonality ps name = d) := by
  constructor
  · intro q hn hq
    simp [resolveFeedbackPersonality, GetPersonality, hn, hq]
  · intro habsent
    by_cases hn : name.isEmpty
    · simp [resolveFeedbackPersonality, GetPersonality, hn, hdef]
    · simp only [Bool.not_eq_true] at hn
      simp [resolveFeedbackPersonality, GetPersonality, hn, habsent, hdef]

theorem personality_lookup_falls_back_to_default_witness :
    resolveFeedbackPersonality defaultPersonalities (toL "unknown") =
      ⟨ toL "default", toL "built-in default personality",
        toL "built-in system prompt", toL "built-in user prompt template",
        150, 7/10 ⟩ :=
  (personality_lookup_falls_back_to_default defaultPersonalities (toL "unknown")
    _ (by rfl)).2 (by rfl)

/-! ## Claim theorems: extraction against the reference algorithm -/

theorem two_le_length_of_quote_wrapped {r : List Char}
    (hp : (toL "\"").isPrefixOf r = true) (hne : r ≠ toL "\"") : 2 ≤ r.length := by
  rw [List.isPrefixOf_iff_prefix] at hp
  obtain ⟨t, rfl⟩ := hp
  cases t with
  | nil => simp at hne
  | cons d rest =>
    have h1 : (toL "\"").length = 1 := rfl
    simp only [List.length_append, h1, List.length_cons]
    omega

theorem extractAfterQuotes_eq (r1 : List Char) :
    extractAfterQuotes r1 =
      specLineScan ((splitLines (stripFencedBlock r1)).map goTrimSpace) := by
  simp only [extractAfterQuotes, specLineScan, findTrimmed_eq_find]
  cases h1 : ((splitLines (stripFencedBlock r1)).map goTrimSpace).find? isConventionalLine with
  | some line => simp [h1]
  | none =>
    simp only [h1]
    cases h2 : ((splitLines (stripFencedBlock r1)).map goTrimSpace).find? isPlainCandidateLine with
    | some line => simp [h2]
    | none =>
      simp only [h2]
      rcases hl : splitLines (stripFencedBlock r1) with _ | ⟨l0, rest⟩
      · exact absurd hl (splitLines_ne_nil _)
      · simp only [hl, List.map_cons, List.headD_cons]
        split
        · rfl
        · next hlen => rw [List.take_of_length_le (by omega)]

/-- C5 (amended): on every input whose trimmed form is not the lone quote
character, `extractCommitMessage` returns normally and agrees with the
spec's reference algorithm `extractCommitMessageSpec`. -/
theorem extractCommitMessage_matches_spec (response : List Char)
    (h : goTrimSpace response ≠ toL "\"") :
    extractCommitMessage response = some (extractCommitMessageSpec response) := by
  unfold extractCommitMessage extractCommitMessageSpec
  cases hp : (toL "\"").isPrefixOf (goTrimSpace response) with
  | false =>
    simp only [hp, Bool.false_and, Bool.and_false, Bool.false_eq_true, if_false]
    rw [extractAfterQuotes_eq, stripFencedBlock_eq]
  | true =>
    cases hs : (toL "\"").isSuffixOf (goTrimSpace response) with
    | false =>
      simp only [hp, hs, Bool.true_and, Bool.and_false, Bool.false_eq_true, if_false]
      rw [extractAfterQuotes_eq, stripFencedBlock_eq]
    | true =>
      have hlen : 2 ≤ (goTrimSpace response).length := two_le_length_of_quote_wrapped hp h
      have hd : decide (2 ≤ (goTrimSpace response).length) = true := decide_eq_true hlen
      simp only [hp, hs, hd, Bool.true_and, Bool.and_true, if_true]
      rw [if_neg (by omega)]
      have hdl : ((goTrimSpace response).drop 1).dropLast =
          ((goTrimSpace response).drop 1).take ((goTrimSpace response).length - 2) := by
        rw [List.dropLast_eq_take, List.length_drop, Nat.sub_sub]
      rw [hdl, extractAfterQuotes_eq, stripFencedBlock_eq]

theorem extractCommitMessage_matches_spec_witness :
    goTrimSpace (toL "```\nfix: correct bug\n```") ≠ toL "\"" ∧
    extractCommitMessage (toL "```\nfix: correct bug\n```") =
      some (extractCommitMessageSpec (toL "```\nfix: correct bug\n```")) :=
  ⟨ by decide, extractCommitMessage_matches_spec _ (by decide) ⟩

/-- C5 counterexample: on the lone quote character the Go code panics
(modelled `none`) while the reference algorithm returns a string, so the
claimed equality for every raw model response fails there. -/
theorem extractCommitMessage_spec_mismatch_on_lone_quote :
    extractCommitMessage (toL "\"") ≠ some (extractCommitMessageSpec (toL "\"")) := by
  decide

/-! ## Claim theorems: length bound of extracted commit messages -/

theorem extractAfterQuotes_length_lt (r1 : List Char) :
    (extractAfterQuotes r1).length < 100 := by
  unfold extractAfterQuotes
  cases h1 : findTrimmed isConventionalLine (splitLines (stripFencedBlock r1)) with
  | some line =>
    simp only [h1]
    have hp := findTrimmed_some h1
    simp only [isConventionalLine, Bool.and_eq_true, decide_eq_true_eq] at hp
    exact hp.1.2
  | none =>
    simp only [h1]
    cases h2 : findTrimmed isPlainCandidateLine (splitLines (stripFencedBlock r1)) with
    | some line =>
      simp only [h2]
      have hp := findTrimmed_some h2
      simp only [isPlainCandidateLine, Bool.and_eq_true, decide_eq_true_eq] at hp
      exact hp.1.2
    | none =>
      simp only [h2]
      rcases hl : splitLines (stripFencedBlock r1) with _ | ⟨l0, rest⟩
      · exact absurd hl (splitLines_ne_nil _)
      · simp only [hl]
        split
        · next hlen =>
          simp only [List.length_take]
          omega
        · next hlen => omega

/-- C10: whenever `extractCommitMessage` returns normally, the returned
message is shorter than 100 characters: both line scans require length
under 100, and the last resort truncates the first line to at most 72
characters. -/
theorem extractCommitMessage_length_lt_100 (response m : List Char)
    (h : extractCommitMessage response = some m) : m.length < 100 := by
  simp only [extractCommitMessage] at h
  split at h
  · split at h
    · exact Option.noConfusion h
    · cases h
      exact extractAfterQuotes_length_lt _
  · cases h
    exact extractAfterQuotes_length_lt _

theorem extractCommitMessage_length_lt_100_witness :
    extractCommitMessage (toL "feat: add thing") = some (toL "feat: add thing") ∧
    (toL "feat: add thing").length < 100 :=
  ⟨ by decide,
    extractCommitMessage_length_lt_100 (toL "feat: add thing") (toL "feat: add thing")
      (by decide) ⟩

/-! ## Claim theorems: malformed-diff classification -/

theorem mem_insertKey {f x : List Char} {l : List (List Char)}
    (h : f ∈ insertKey x l) : f ∈ l ∨ f = x := by
  unfold insertKey at h
  split at h
  · exact Or.inl h
  · rcases List.mem_append.mp h with h | h
    · exact Or.inl h
    · simp at h
      exact Or.inr h

@[simp] theorem diffStepCounts_currentFile (s : DiffState) (l : List Char) :
    (diffStepCounts s l).currentFile = s.currentFile := by
  unfold diffStepCounts
  repeat' split
  all_goals rfl

@[simp] theorem diffStepCounts_changedFiles (s : DiffState) (l : List Char) :
    (diffStepCounts s l).changedFiles = s.changedFiles := by
  unfold diffStepCounts
  repeat' split
  all_goals rfl

@[simp] theorem diffStepCounts_addedFiles (s : DiffState) (l : List Char) :
    (diffStepCounts s l).addedFiles = s.addedFiles := by
  unfold diffStepCounts
  repeat' split
  all_goals rfl

@[simp] theorem diffStepCounts_modifiedFiles (s : DiffState) (l : List Char) :
    (diffStepCounts s l).modifiedFiles = s.modifiedFiles := by
  unfold diffStepCounts
  repeat' split
  all_goals rfl

@[simp] theorem diffStepCounts_deletedFiles (s : DiffState) (l : List Char) :
    (diffStepCounts s l).deletedFiles = s.deletedFiles := by
  unfold diffStepCounts
  repeat' split
  all_goals rfl

@[simp] theorem categorizeFile_currentFile (fp : List Char) (s : DiffState) :
    (categorizeFile fp s).currentFile = s.currentFile := by
  unfold categorizeFile
  repeat' split
  all_goals rfl

@[simp] theorem categorizeFile_changedFiles (fp : List Char) (s : DiffState) :
    (categorizeFile fp s).changedFiles = s.changedFiles := by
  unfold categorizeFile
  repeat' split
  all_goals rfl

@[simp] theorem categorizeFile_addedFiles (fp : List Char) (s : DiffState) :
    (categorizeFile fp s).addedFiles = s.addedFiles := by
  unfold categorizeFile
  repeat' split
  all_goals rfl

@[simp] theorem categorizeFile_modifiedFiles (fp : List Char) (s : DiffState) :
    (categorizeFile fp s).modifiedFiles = s.modifiedFiles := by
  unfold categorizeFile
  repeat' split
  all_goals rfl

@[simp] theorem categorizeFile_deletedFiles (fp : List Char) (s : DiffState) :
    (categorizeFile fp s).deletedFiles = s.deletedFiles := by
  unfold categorizeFile
  repeat' split
  all_goals rfl

/-- On a line that is not a `diff --git` header, the analysis step keeps the
current file and the changed set, and can only add the current file to the
operation sets. -/
theorem diffStep_no_header (s : DiffState) {line : List Char}
    (h : startsWith line "diff --git" = false) :
    (diffStep s line).currentFile = s.currentFile ∧
    (diffStep s line).changedFiles = s.changedFiles ∧
    (∀ f, f ∈ (diffStep s line).addedFiles → f ∈ s.addedFiles ∨ f = s.currentFile) ∧
    (∀ f, f ∈ (diffStep s line).modifiedFiles → f ∈ s.modifiedFiles ∨ f = s.currentFile) ∧
    (∀ f, f ∈ (diffStep s line).deletedFiles → f ∈ s.deletedFiles ∨ f = s.currentFile) := by
  unfold diffStep
  simp only [diffStepCounts_currentFile, diffStepCounts_changedFiles,
    diffStepCounts_addedFiles, diffStepCounts_modifiedFiles, diffStepCounts_deletedFiles]
  unfold diffStepSets insertKey
  simp only [h, Bool.false_eq_true, if_false]
  refine ⟨?_, ?_, ?_, ?_, ?_⟩ <;> (repeat' split) <;> simp_all

theorem fold_no_header (lines : List (List Char)) :
    ∀ s : DiffState, (∀ l ∈ lines, startsWith l "diff --git" = false) →
      (lines.foldl diffStep s).currentFile = s.currentFile ∧
      (lines.foldl diffStep s).changedFiles = s.changedFiles ∧
      (∀ f, f ∈ (lines.foldl diffStep s).addedFiles → f ∈ s.addedFiles ∨ f = s.currentFile) ∧
      (∀ f, f ∈ (lines.foldl diffStep s).modifiedFiles → f ∈ s.modifiedFiles ∨ f = s.currentFile) ∧
      (∀ f, f ∈ (lines.foldl diffStep s).deletedFiles → f ∈ s.deletedFiles ∨ f = s.currentFile) := by
  induction lines with
  | nil =>
    intro s _
    exact ⟨rfl, rfl, fun f h => Or.inl h, fun f h => Or.inl h, fun f h => Or.inl h⟩
  | cons l rest ih =>
    intro s hall
    have hl : startsWith l "diff --git" = false := hall l (List.mem_cons_self _ _)
    have hstep := diffStep_no_header s hl
    have hrest := ih (diffStep s l) (fun x hx => hall x (List.mem_cons_of_mem _ hx))
    simp only [List.foldl_cons]
    refine ⟨?_, ?_, ?_, ?_, ?_⟩
    · rw [hrest.1, hstep.1]
    · rw [hrest.2.1, hstep.2.1]
    · intro f hf
      rcases hrest.2.2.1 f hf with h' | h'
      · exact hstep.2.2.1 f h'
      · rw [hstep.1] at h'
        exact Or.inr h'
    · intro f hf
      rcases hrest.2.2.2.1 f hf with h' | h'
      · exact hstep.2.2.2.1 f h'
      · rw [hstep.1] at h'
        exact Or.inr h'
    · intro f hf
      rcases hrest.2.2.2.2 f hf with h' | h'
      · exact hstep.2.2.2.2 f h'
      · rw [hstep.1] at h'
        exact Or.inr h'

/-- C2 counterexample: the empty diff yields zero changed files but the
modified set is *not* empty — it holds one entry, the empty filename,
because the single empty line of `strings.Split("", "\n")` marks the
initial current file as modified. -/
theorem empty_diff_modified_set_not_empty :
    (analyzeDiff (toL "")).changedFiles.length = 0 ∧
    (analyzeDiff (toL "")).addedFiles.length = 0 ∧
    (analyzeDiff (toL "")).deletedFiles.length = 0 ∧
    (analyzeDiff (toL "")).modifiedFiles = [[]] := by
  decide

/-- C2 (amended): for every input containing no `diff --git` line, the
analysis never raises, reports zero changed files, and records no named
file: every entry of the added, modified, and deleted sets is the
empty-filename placeholder. -/
theorem malformed_diff_degrades_to_placeholder (diff : List Char)
    (h : ∀ l ∈ splitLines diff, startsWith l "diff --git" = false) :
    (analyzeDiff diff).changedFiles = [] ∧
    (∀ f, f ∈ (analyzeDiff diff).addedFiles → f = []) ∧
    (∀ f, f ∈ (analyzeDiff diff).modifiedFiles → f = []) ∧
    (∀ f, f ∈ (analyzeDiff diff).deletedFiles → f = []) := by
  have hfold := fold_no_header (splitLines diff) initDiffState h
  unfold analyzeDiff
  refine ⟨?_, ?_, ?_, ?_⟩
  · simpa [initDiffState] using hfold.2.1
  · intro f hf
    rcases hfold.2.2.1 f (by simpa using hf) with h' | h'
    · simp [initDiffState] at h'
    · simpa [initDiffState] using h'
  · intro f hf
    have hf' : f ∈ ((splitLines diff).foldl diffStep initDiffState).modifiedFiles := by
      have hf1 := hf
      simp only at hf1
      exact (List.mem_filter.mp (List.mem_filter.mp hf1).1).1
    rcases hfold.2.2.2.1 f hf' with h' | h'
    · simp [initDiffState] at h'
    · simpa [initDiffState] using h'
  · intro f hf
    rcases hfold.2.2.2.2 f (by simpa using hf) with h' | h'
    · simp [initDiffState] at h'
    · simpa [initDiffState] using h'

theorem malformed_diff_degrades_to_placeholder_witness :
    (analyzeDiff (toL "random text\nnot a diff")).changedFiles = [] ∧
    (∀ f, f ∈ (analyzeDiff (toL "random text\nnot a diff")).modifiedFiles → f = []) := by
  have h := malformed_diff_degrades_to_placeholder (toL "random text\nnot a diff") (by decide)
  exact ⟨h.1, h.2.2.1⟩

/-! ## Claim theorems: diff parser classification -/

theorem mem_insertKey_of_mem {f x : List Char} {l : List (List Char)} (h : f ∈ l) :
    f ∈ insertKey x l := by
  unfold insertKey
  split
  · exact h
  · exact List.mem_append_left _ h

theorem self_mem_insertKey (x : List Char) (l : List (List Char)) : x ∈ insertKey x l := by
  unfold insertKey
  split
  · next h => exact List.elem_iff.mp h
  · exact List.mem_append_right _ (List.mem_singleton.mpr rfl)

theorem headersFollowed_tail {l : List Char} {rest : List (List Char)}
    (h : headersFollowed (l :: rest) = true) : headersFollowed rest = true := by
  cases rest with
  | nil => rfl
  | cons l2 r' =>
    simp only [headersFollowed, Bool.and_eq_true] at h
    exact h.2

theorem headersFollowed_header {l : List Char} {rest : List (List Char)}
    (hh : isHeaderLine l = true) (h : headersFollowed (l :: rest) = true) :
    ∃ l2 r', rest = l2 :: r' ∧ isHeaderLine l2 = false := by
  cases rest with
  | nil => simp [headersFollowed, hh] at h
  | cons l2 r' =>
    refine ⟨l2, r', rfl, ?_⟩
    simp only [headersFollowed, Bool.and_eq_true, Bool.or_eq_true, Bool.not_eq_true'] at h
    rcases h.1 with h1 | h1
    · rw [hh] at h1
      exact absurd h1 (by simp)
    · exact h1

theorem diffStep_header_sets (s : DiffState) {line : List Char}
    (hh : startsWith line "diff --git" = true) :
    (diffStep s line).addedFiles = s.addedFiles ∧
    (diffStep s line).deletedFiles = s.deletedFiles ∧
    (diffStep s line).modifiedFiles = s.modifiedFiles := by
  unfold diffStep diffStepSets
  simp only [diffStepCounts_addedFiles, diffStepCounts_deletedFiles,
    diffStepCounts_modifiedFiles]
  rw [if_pos hh]
  split <;> simp

theorem diffStep_header_changed (s : DiffState) {line : List Char}
    (hh : startsWith line "diff --git" = true) :
    ((diffStep s line).changedFiles = s.changedFiles ∧
      (diffStep s line).currentFile = s.currentFile) ∨
    (∃ fp, (diffStep s line).changedFiles = insertKey fp s.changedFiles ∧
      (diffStep s line).currentFile = fp) := by
  unfold diffStep diffStepSets
  simp only [diffStepCounts_changedFiles, diffStepCounts_currentFile]
  rw [if_pos hh]
  split
  · right
    refine ⟨goTrimStart (toL "a/") ((goFields line).getD 2 []), ?_, ?_⟩ <;> simp
  · left
    exact ⟨rfl, rfl⟩

theorem diffStep_body (s : DiffState) {line : List Char}
    (hh : startsWith line "diff --git" = false)
    (hn : startsWith line "new file mode" = false)
    (hdl : startsWith line "deleted file mode" = false)
    (ha : s.addedFiles = []) (hd : s.deletedFiles = []) :
    (diffStep s line).currentFile = s.currentFile ∧
    (diffStep s line).changedFiles = s.changedFiles ∧
    (diffStep s line).addedFiles = [] ∧
    (diffStep s line).deletedFiles = [] ∧
    (diffStep s line).modifiedFiles = insertKey s.currentFile s.modifiedFiles := by
  unfold diffStep diffStepSets
  simp only [diffStepCounts_currentFile, diffStepCounts_changedFiles,
    diffStepCounts_addedFiles, diffStepCounts_deletedFiles, diffStepCounts_modifiedFiles,
    hh, hn, hdl, Bool.false_eq_true, if_false, ha, hd]
  simp
/-- The core induction for the no-marker part of the diff-parser claim:
with no marker lines and every header followed by a body line, every
announced file ends up in the modified set, and the added/deleted sets
stay empty. -/
theorem fold_body_invariant :
    ∀ (lines : List (List Char)) (s : DiffState),
      (∀ l ∈ lines, isMarkerLine l = false) →
      headersFollowed lines = true →
      s.addedFiles = [] → s.deletedFiles = [] →
      (∀ f ∈ s.changedFiles,
          f ∈ s.modifiedFiles ∨ (headIsBody lines = true ∧ f = s.currentFile)) →
      (∀ f ∈ (lines.foldl diffStep s).changedFiles,
          f ∈ (lines.foldl diffStep s).modifiedFiles) ∧
      (lines.foldl diffStep s).addedFiles = [] ∧
      (lines.foldl diffStep s).deletedFiles = [] := by
  intro lines
  induction lines with
  | nil =>
    intro s _ _ ha hd hinv
    refine ⟨?_, ha, hd⟩
    intro f hf
    rcases hinv f hf with h | h
    · exact h
    · exact absurd h.1 (by simp [headIsBody])
  | cons l rest ih =>
    intro s hm hhf ha hd hinv
    have hm_rest : ∀ x ∈ rest, isMarkerLine x = false :=
      fun x hx => hm x (List.mem_cons_of_mem _ hx)
    simp only [List.foldl_cons]
    by_cases hh : isHeaderLine l = true
    · have hsets := diffStep_header_sets s hh
      have hinv_s : ∀ f ∈ s.changedFiles, f ∈ s.modifiedFiles := by
        intro f hf
        rcases hinv f hf with h | h
        · exact h
        · exact absurd h.1 (by simp [headIsBody, hh])
      obtain ⟨l2, r', hrest, hl2⟩ := headersFollowed_header hh hhf
      have ha' : (diffStep s l).addedFiles = [] := by rw [hsets.1, ha]
      have hd' : (diffStep s l).deletedFiles = [] := by rw [hsets.2.1, hd]
      have hib : headIsBody rest = true := by
        rw [hrest]
        simp [headIsBody, hl2]
      have hinv' : ∀ f ∈ (diffStep s l).changedFiles,
          f ∈ (diffStep s l).modifiedFiles ∨
            (headIsBody rest = true ∧ f = (diffStep s l).currentFile) := by
        intro f hf
        rcases diffStep_header_changed s hh with ⟨hc, hcur⟩ | ⟨fp, hc, hcur⟩
        · rw [hc] at hf
          rw [hsets.2.2]
          exact Or.inl (hinv_s f hf)
        · rw [hc] at hf
          rcases mem_insertKey hf with h' | h'
          · rw [hsets.2.2]
            exact Or.inl (hinv_s f h')
          · rw [hcur]
            exact Or.inr ⟨hib, h'⟩
      exact ih (diffStep s l) hm_rest (headersFollowed_tail hhf) ha' hd' hinv'
    · have hh' : isHeaderLine l = false := by simpa using hh
      have hmm := hm l (List.mem_cons_self _ _)
      simp only [isMarkerLine, Bool.or_eq_false_iff] at hmm
      have hb := diffStep_body s hh' hmm.1 hmm.2 ha hd
      have hstrong : ∀ f ∈ (diffStep s l).changedFiles, f ∈ (diffStep s l).modifiedFiles := by
        intro f hf
        rw [hb.2.1] at hf
        rw [hb.2.2.2.2]
        rcases hinv f hf with h' | h'
        · exact mem_insertKey_of_mem h'
        · rw [h'.2]
          exact self_mem_insertKey _ _
      have hinv' : ∀ f ∈ (diffStep s l).changedFiles,
          f ∈ (diffStep s l).modifiedFiles ∨
            (headIsBody rest = true ∧ f = (diffStep s l).currentFile) :=
        fun f hf => Or.inl (hstrong f hf)
      exact ih (diffStep s l) hm_rest (headersFollowed_tail hhf)
        hb.2.2.1 hb.2.2.2.1 hinv'

/-- C6 counterexample. First part: a diff whose header block carries both a
`new file mode` and a `deleted file mode` marker puts the same file in both
the added and the deleted set, so the three operation sets are not pairwise
disjoint. Second part: a marker-free diff consisting of a bare header
announces one changed file yet classifies nothing as modified, so not every
changed file is modified. -/
theorem diff_classification_claim_fails :
    toL "f.go" ∈ (analyzeDiff (toL "diff --git a/f.go b/f.go\nnew file mode 100644\ndeleted file mode 100644")).addedFiles ∧
    toL "f.go" ∈ (analyzeDiff (toL "diff --git a/f.go b/f.go\nnew file mode 100644\ndeleted file mode 100644")).deletedFiles ∧
    (analyzeDiff (toL "diff --git a/g.md b/g.md")).changedFiles = [toL "g.md"] ∧
    (∀ l ∈ splitLines (toL "diff --git a/g.md b/g.md"), isMarkerLine l = false) ∧
    (analyzeDiff (toL "diff --git a/g.md b/g.md")).modifiedFiles = [] := by
  refine ⟨?_, ?_, ?_, ?_, ?_⟩ <;> decide

/-- C6 (amended): the modified set is disjoint from both the added and the
deleted set — a file marked new or deleted is never counted as modified —
and for every diff with no marker lines in which every header line is
followed by a body line before the next header, every changed file is
classified as modified. -/
theorem diff_classification_disjoint_and_modified (diff : List Char) :
    (∀ f ∈ (analyzeDiff diff).modifiedFiles,
        f ∉ (analyzeDiff diff).addedFiles ∧ f ∉ (analyzeDiff diff).deletedFiles) ∧
    ((∀ l ∈ splitLines diff, isMarkerLine l = false) →
      headersFollowed (splitLines diff) = true →
      ∀ f ∈ (analyzeDiff diff).changedFiles, f ∈ (analyzeDiff diff).modifiedFiles) := by
  constructor
  · intro f hf
    unfold analyzeDiff at hf ⊢
    simp only [List.mem_filter, Bool.not_eq_true', List.elem_eq_mem,
      decide_eq_false_iff_not] at hf
    exact ⟨hf.1.2, hf.2⟩
  · intro hm hhf f hf
    have hinv0 : ∀ f ∈ initDiffState.changedFiles,
        f ∈ initDiffState.modifiedFiles ∨
          (headIsBody (splitLines diff) = true ∧ f = initDiffState.currentFile) := by
      intro f hf'
      simp [initDiffState] at hf'
    have hres := fold_body_invariant (splitLines diff) initDiffState hm hhf rfl rfl hinv0
    unfold analyzeDiff at hf ⊢
    refine List.mem_filter.mpr ⟨List.mem_filter.mpr ⟨hres.1 f hf, ?_⟩, ?_⟩
    · simp [hres.2.1]
    · simp [hres.2.2]

theorem diff_classification_disjoint_and_modified_witness :
    toL "f.md" ∈ (analyzeDiff (toL "diff --git a/f.md b/f.md\nindex 123")).modifiedFiles :=
  (diff_classification_disjoint_and_modified
      (toL "diff --git a/f.md b/f.md\nindex 123")).2
    (by decide) (by decide) (toL "f.md") (by decide)

/-! ## Claim theorems: issue generation fallback -/

theorem generateSimpleIssueTemplate_shape (d : List Char) (repo : RepoInfo) :
    ∃ e c p st, generateSimpleIssueTemplate d repo =
      (issueTitleFromDescription d, issueTemplateBody d e c p st repo) := by
  unfold generateSimpleIssueTemplate
  exact ⟨_, _, _, _, rfl⟩

theorem containsSub_mono {n s t : List Char} (h : containsSub n s = true)
    (hst : s <:+: t) : containsSub n t = true :=
  containsSub_of_infix ((infix_of_containsSub h).trans hst)

/-- Every instance of the section skeleton contains the five literal section
headers and the repository-reference footer, whatever section texts the
keyword analysis selected. -/
theorem issueTemplateBody_contains_headers
    (d e c p st : List Char) (repo : RepoInfo) :
    containsSub (toL "## Description") (issueTemplateBody d e c p st repo) = true ∧
    containsSub (toL "## Expected Behavior") (issueTemplateBody d e c p st repo) = true ∧
    containsSub (toL "## Current Behavior") (issueTemplateBody d e c p st repo) = true ∧
    containsSub (toL "## Possible Solution") (issueTemplateBody d e c p st repo) = true ∧
    containsSub (toL "## Steps to Reproduce") (issueTemplateBody d e c p st repo) = true ∧
    containsSub (toL "\n\n## Environment\n\n- Repository: " ++ repo.owner ++ toL "/" ++
      repo.name ++ toL "\n- Generated with noidea CLI")
      (issueTemplateBody d e c p st repo) = true := by
  unfold issueTemplateBody
  refine ⟨?_, ?_, ?_, ?_, ?_, ?_⟩
  · exact containsSub_mono (n := toL "## Description") (s := toL "## Description\n\n")
      (by decide)
      ⟨[], d ++ toL "\n\n## Expected Behavior\n\n" ++ e ++ toL "\n\n## Current Behavior\n\n" ++
        c ++ toL "\n\n## Possible Solution\n\n" ++ p ++ toL "\n\n## Steps to Reproduce\n\n" ++
        st ++ toL "\n\n## Environment\n\n- Repository: " ++ repo.owner ++ toL "/" ++
        repo.name ++ toL "\n- Generated with noidea CLI",
        by simp [List.append_assoc]⟩
  · exact containsSub_mono (n := toL "## Expected Behavior")
      (s := toL "\n\n## Expected Behavior\n\n") (by decide)
      ⟨toL "## Description\n\n" ++ d,
        e ++ toL "\n\n## Current Behavior\n\n" ++ c ++ toL "\n\n## Possible Solution\n\n" ++
        p ++ toL "\n\n## Steps to Reproduce\n\n" ++ st ++
        toL "\n\n## Environment\n\n- Repository: " ++ repo.owner ++ toL "/" ++
        repo.name ++ toL "\n- Generated with noidea CLI",
        by simp [List.append_assoc]⟩
  · exact containsSub_mono (n := toL "## Current Behavior")
      (s := toL "\n\n## Current Behavior\n\n") (by decide)
      ⟨toL "## Description\n\n" ++ d ++ toL "\n\n## Expected Behavior\n\n" ++ e,
        c ++ toL "\n\n## Possible Solution\n\n" ++ p ++ toL "\n\n## Steps to Reproduce\n\n" ++
        st ++ toL "\n\n## Environment\n\n- Repository: " ++ repo.owner ++ toL "/" ++
        repo.name ++ toL "\n- Generated with noidea CLI",
        by simp [List.append_assoc]⟩
  · exact containsSub_mono (n := toL "## Possible Solution")
      (s := toL "\n\n## Possible Solution\n\n") (by decide)
      ⟨toL "## Description\n\n" ++ d ++ toL "\n\n## Expected Behavior\n\n" ++ e ++
        toL "\n\n## Current Behavior\n\n" ++ c,
        p ++ toL "\n\n## Steps to Reproduce\n\n" ++ st ++
        toL "\n\n## Environment\n\n- Repository: " ++ repo.owner ++ toL "/" ++
        repo.name ++ toL "\n- Generated with noidea CLI",
        by simp [List.append_assoc]⟩
  · exact containsSub_mono (n := toL "## Steps to Reproduce")
      (s := toL "\n\n## Steps to Reproduce\n\n") (by decide)
      ⟨toL "## Description\n\n" ++ d ++ toL "\n\n## Expected Behavior\n\n" ++ e ++
        toL "\n\n## Current Behavior\n\n" ++ c ++ toL "\n\n## Possible Solution\n\n" ++ p,
        st ++ toL "\n\n## Environment\n\n- Repository: " ++ repo.owner ++ toL "/" ++
        repo.name ++ toL "\n- Generated with noidea CLI",
        by simp [List.append_assoc]⟩
  · exact containsSub_of_infix
      ⟨toL "## Description\n\n" ++ d ++ toL "\n\n## Expected Behavior\n\n" ++ e ++
        toL "\n\n## Current Behavior\n\n" ++ c ++ toL "\n\n## Possible Solution\n\n" ++ p ++
        toL "\n\n## Steps to Reproduce\n\n" ++ st,
        [], by simp [List.append_assoc]⟩

/-- C7: whenever splitting the AI response on the literal delimiter `---`
yields fewer than two parts, issue generation returns the deterministic
non-AI fallback: the title is the truncated first line of the description
and the body carries the five literal section headers and the
repository-reference footer. -/
theorem issue_generation_fallback_template
    (aiResponse description : List Char) (repo : RepoInfo) (codeRefs : List (List Char))
    (h : (goSplit (toL "---") aiResponse).length < 2) :
    handleIssueAIResponse aiResponse description repo codeRefs =
      generateSimpleIssueTemplate description repo ∧
    (handleIssueAIResponse aiResponse description repo codeRefs).1 =
      issueTitleFromDescription description ∧
    containsSub (toL "## Description")
      (handleIssueAIResponse aiResponse description repo codeRefs).2 = true ∧
    containsSub (toL "## Expected Behavior")
      (handleIssueAIResponse aiResponse description repo codeRefs).2 = true ∧
    containsSub (toL "## Current Behavior")
      (handleIssueAIResponse aiResponse description repo codeRefs).2 = true ∧
    containsSub (toL "## Possible Solution")
      (handleIssueAIResponse aiResponse description repo codeRefs).2 = true ∧
    containsSub (toL "## Steps to Reproduce")
      (handleIssueAIResponse aiResponse description repo codeRefs).2 = true ∧
    containsSub (toL "\n\n## Environment\n\n- Repository: " ++ repo.owner ++ toL "/" ++
      repo.name ++ toL "\n- Generated with noidea CLI")
      (handleIssueAIResponse aiResponse description repo codeRefs).2 = true := by
  have heq : handleIssueAIResponse aiResponse description repo codeRefs =
      generateSimpleIssueTemplate description repo := by
    unfold handleIssueAIResponse
    cases hs : goSplit (toL "---") aiResponse with
    | nil => rfl
    | cons p0 tail =>
      cases tail with
      | nil => rfl
      | cons p1 rest =>
        rw [hs] at h
        simp only [List.length_cons] at h
        omega
  obtain ⟨e, c, p, st, hshape⟩ := generateSimpleIssueTemplate_shape description repo
  have hb := issueTemplateBody_contains_headers description e c p st repo
  rw [heq, hshape]
  exact ⟨rfl, rfl, hb.1, hb.2.1, hb.2.2.1, hb.2.2.2.1, hb.2.2.2.2.1, hb.2.2.2.2.2⟩

theorem issue_generation_fallback_template_witness :
    handleIssueAIResponse (toL "no delimiter here") (toL "desc") ⟨ toL "owner", toL "repo" ⟩ [] =
      generateSimpleIssueTemplate (toL "desc") ⟨ toL "owner", toL "repo" ⟩ :=
  (issue_generation_fallback_template (toL "no delimiter here") (toL "desc")
    ⟨ toL "owner", toL "repo" ⟩ [] (by decide)).1

/-! ## Claim theorems: content-trimmer line bound -/

theorem splitOnPred_cons (p : Char → Bool) (ch : Char) (rest : List Char) :
    splitOnPred p (ch :: rest) =
      if p ch then [] :: splitOnPred p rest else splitCons ch (splitOnPred p rest) := rfl

theorem splitOnPred_eq_single {p : Char → Bool} {s : List Char}
    (h : ∀ c ∈ s, p c = false) : splitOnPred p s = [s] := by
  induction s with
  | nil => rfl
  | cons ch rest ih =>
    rw [splitOnPred_cons, if_neg (by simp [h ch (List.mem_cons_self _ _)])]
    rw [ih (fun c hc => h c (List.mem_cons_of_mem _ hc))]
    rfl

theorem splitOnPred_append_sep {p : Char → Bool} {a t : List Char} {ch : Char}
    (h : ∀ c ∈ a, p c = false) (hc : p ch = true) :
    splitOnPred p (a ++ ch :: t) = a :: splitOnPred p t := by
  induction a with
  | nil =>
    rw [List.nil_append, splitOnPred_cons, if_pos hc]
  | cons c0 a' ih =>
    rw [List.cons_append, splitOnPred_cons,
      if_neg (by simp [h c0 (List.mem_cons_self _ _)])]
    rw [ih (fun c hcm => h c (List.mem_cons_of_mem _ hcm))]
    rfl

theorem mem_splitOnPred {p : Char → Bool} {s : List Char} :
    ∀ l ∈ splitOnPred p s, ∀ c ∈ l, p c = false := by
  induction s with
  | nil =>
    intro l hl c hc
    simp only [splitOnPred, List.foldr_nil, List.mem_singleton] at hl
    subst hl
    simp at hc
  | cons ch rest ih =>
    intro l hl c hc
    rw [splitOnPred_cons] at hl
    by_cases hp : p ch = true
    · rw [if_pos hp] at hl
      rcases List.mem_cons.mp hl with rfl | hl'
      · simp at hc
      · exact ih l hl' c hc
    · rw [if_neg hp] at hl
      obtain ⟨h0, t0, hsp⟩ := List.exists_cons_of_ne_nil (splitOnPred_ne_nil p rest)
      rw [hsp] at hl
      simp only [splitCons, List.mem_cons] at hl
      rcases hl with rfl | hl'
      · rcases List.mem_cons.mp hc with rfl | hc'
        · simpa using hp
        · exact ih h0 (by rw [hsp]; exact List.mem_cons_self _ _) c hc'
      · exact ih l (by rw [hsp]; exact List.mem_cons_of_mem _ hl') c hc

theorem splitLines_goJoin (ls : List (List Char)) (hne : ls ≠ [])
    (h : ∀ l ∈ ls, ∀ c ∈ l, ¬ c = '\n') :
    splitLines (goJoin ls (toL "\n")) = ls := by
  induction ls with
  | nil => exact absurd rfl hne
  | cons l rest ih =>
    cases rest with
    | nil =>
      show splitOnPred _ l = [l]
      exact splitOnPred_eq_single
        (fun c hc => by simp [h l (List.mem_cons_self _ _) c hc])
    | cons l2 r =>
      have hnl : toL "\n" = ['\n'] := rfl
      have hjoin : goJoin (l :: l2 :: r) (toL "\n") =
          l ++ '\n' :: goJoin (l2 :: r) (toL "\n") := by
        show l ++ toL "\n" ++ goJoin (l2 :: r) (toL "\n") = _
        rw [hnl]
        simp [List.append_assoc]
      rw [hjoin]
      have hstep : splitLines (l ++ '\n' :: goJoin (l2 :: r) (toL "\n")) =
          l :: splitLines (goJoin (l2 :: r) (toL "\n")) :=
        splitOnPred_append_sep
          (fun c hc => by simp [h l (List.mem_cons_self _ _) c hc]) (by simp)
      rw [hstep, ih (by simp) (fun l' hl' => h l' (List.mem_cons_of_mem _ hl'))]

theorem countLines_goJoin (ls : List (List Char)) (hne : ls ≠ [])
    (h : ∀ l ∈ ls, ∀ c ∈ l, ¬ c = '\n') :
    countLines (goJoin ls (toL "\n")) = ls.length := by
  unfold countLines
  rw [splitLines_goJoin ls hne h]

theorem generalSampleList_ne_nil (lines : List (List Char)) :
    extractGeneralCodeSampleList lines 50 ≠ [] := by
  have hpos : 0 < (extractGeneralCodeSampleList lines 50).length := by
    simp only [extractGeneralCodeSampleList]
    split_ifs <;> simp [List.length_append]
  exact List.length_pos.mp hpos

theorem generalSampleList_length_le (lines : List (List Char)) :
    (extractGeneralCodeSampleList lines 50).length ≤ 57 := by
  simp only [extractGeneralCodeSampleList]
  split_ifs <;>
    simp [List.length_append, List.length_take, List.length_drop] <;>
    omega

set_option maxRecDepth 40000 in
theorem generalSampleList_no_newline (lines : List (List Char))
    (hlines : ∀ l ∈ lines, ∀ c ∈ l, ¬ c = '\n') :
    ∀ l ∈ extractGeneralCodeSampleList lines 50, ∀ c ∈ l, ¬ c = '\n' := by
  intro l hl
  simp only [extractGeneralCodeSampleList, List.append_assoc, List.cons_append,
    List.nil_append] at hl
  rcases List.mem_cons.mp hl with rfl | hl
  · decide
  rcases List.mem_cons.mp hl with rfl | hl
  · simp
  rcases List.mem_cons.mp hl with rfl | hl
  · decide
  rcases List.mem_append.mp hl with hl | hl
  · exact hlines l (List.take_subset _ _ hl)
  rcases List.mem_cons.mp hl with rfl | hl
  · simp
  rcases List.mem_append.mp hl with hl | hl
  · split at hl
    · rcases List.mem_cons.mp hl with rfl | hl
      · decide
      rcases List.mem_append.mp hl with hl | hl
      · exact hlines l (List.drop_subset _ _ (List.take_subset _ _ hl))
      · rcases List.mem_singleton.mp hl with rfl
        simp
    · simp at hl
  · split at hl
    · rcases List.mem_cons.mp hl with rfl | hl
      · decide
      · exact hlines l (List.drop_subset _ _ hl)
    · simp at hl

set_option maxRecDepth 200000 in
/-- C3 counterexample: on a Go file made of one 102-line struct, the trimmer
takes the structural-extraction path and returns 106 lines — the whole
struct plus labels — far above the 50-line budget, because included struct
sections are not size-limited. -/
theorem trimCodeContent_unbounded_on_go_structs :
    countLines bigGoStructContent = 102 ∧
    countLines (trimCodeContent bigGoStructContent (toL "big.go")) = 106 := by
  constructor <;> decide

/-- C3 (amended): for every file content whose path has an extension outside
the structural-extraction set (go, js, ts, jsx, tsx), the trimmer's output is
bounded: content within the 50-line budget is returned unchanged, and the
general sampler emits at most 57 lines (the 50-line budget plus its fixed
labeling comment lines). On the Go/JS structural paths no such bound holds
(see the counterexample). -/
theorem trimCodeContent_bounded_on_general_path (content filePath : List Char)
    (h1 : getFileExtension filePath ≠ toL "go")
    (h2 : getFileExtension filePath ≠ toL "js")
    (h3 : getFileExtension filePath ≠ toL "ts")
    (h4 : getFileExtension filePath ≠ toL "jsx")
    (h5 : getFileExtension filePath ≠ toL "tsx") :
    countLines (trimCodeContent content filePath) ≤ 57 := by
  simp only [trimCodeContent]
  split
  · next hsmall =>
    calc countLines content = (splitLines content).length := rfl
    _ ≤ 50 := hsmall
    _ ≤ 57 := by omega
  · next hbig =>
    rw [if_neg (show ¬(decide (getFileExtension filePath = toL "js") ||
        decide (getFileExtension filePath = toL "ts") ||
        decide (getFileExtension filePath = toL "jsx") ||
        decide (getFileExtension filePath = toL "tsx")) = true by
      simp [h2, h3, h4, h5])]
    unfold extractGeneralCodeSample
    have hln : ∀ l ∈ splitLines content, ∀ c ∈ l, ¬ c = '\n' := by
      intro l hl c hc
      have := mem_splitOnPred l hl c hc
      simpa using this
    rw [countLines_goJoin _ (generalSampleList_ne_nil _)
      (generalSampleList_no_newline _ hln)]
    exact generalSampleList_length_le _

theorem trimCodeContent_bounded_on_general_path_witness :
    countLines (trimCodeContent (goJoin (List.replicate 60 (toL "x")) (toL "\n"))
      (toL "notes.txt")) ≤ 57 :=
  trimCodeContent_bounded_on_general_path
    (goJoin (List.replicate 60 (toL "x")) (toL "\n")) (toL "notes.txt")
    (by decide) (by decide) (by decide) (by decide) (by decide)
